import Mathlib

/-!
Shallow embedding of the `sp_constraints` repository:

* `supplyplanningmodel.py` — the single-facility `SupplyPlanningModel`
  (products, periods, decision variables, demand / minimum-production
  constraints, result extraction);
* `advancedsupplyplanningmodel.py` — the multi-facility
  `AdvancedSupplyPlanningModel` (result extraction, scenario comparison);
* `supply_constraints_dashboard.py` — the rule-based constraint evaluator;
* `constraints.py` — the abstract `Constraint` base class and its
  `InventoryConstraint` / `CapacityConstraint` subclasses.

Python dict lookups are embedded as association-list lookups that fail with
a `KeyError`-style error; period indices are
integers and numeric values exact integers (the test data and the claims
at issue involve only integer quantities, and none of the verified
properties depends on fractional values).  Linear (in)equalities are kept in the structural form the source
builds them in (left expression, relation, right expression) so that the
shape of each emitted constraint can be compared literally.
-/

/-- A decision variable of the single-facility model: the five families
declared by `SupplyPlanningModel.setup_variables`. -/
inductive PVar
  | production (p : String) (t : Int)
  | setup (p : String) (t : Int)
  | inventory (p : String) (t : Int)
  | backlog (p : String) (t : Int)
  | overtime (t : Int)
deriving DecidableEq, Repr

/-- A linear expression over variables `V`: a list of coefficient/variable
terms plus a constant, mirroring the affine expressions pulp builds. -/
structure LinExpr (V : Type) where
  terms : List (Int × V)
  konst : Int
deriving DecidableEq, Repr

/-- Relation of a linear constraint. -/
inductive ConRel
  | eq
  | le
  | ge
deriving DecidableEq, Repr

/-- A linear constraint `lhs rel rhs` in the structural form the source
writes it (before any solver-side normalisation). -/
structure LinCon (V : Type) where
  lhs : LinExpr V
  rel : ConRel
  rhs : LinExpr V
deriving DecidableEq, Repr

/-- Errors a Python dict lookup can raise while building the model.
`keyErrorStr` / `keyErrorInt` are `KeyError` on a product / period key of a
parameter dict; `keyErrorVar` is `KeyError` on a `(product, period)` key of
a variable dict.  `missingParameter` is modelled from the spec's error
taxonomy (`MissingParameter`); no code in the repository raises it. -/
inductive PyErr
  | keyErrorStr (k : String)
  | keyErrorInt (k : Int)
  | keyErrorVar (p : String) (t : Int)
  | missingParameter (k : String)
deriving DecidableEq, Repr

instance {ε α : Type} [DecidableEq ε] [DecidableEq α] : DecidableEq (Except ε α) := fun x y =>
  match x, y with
  | .error e, .error f =>
    if h : e = f then isTrue (by rw [h]) else isFalse (by simp [h])
  | .error _, .ok _ => isFalse (by simp)
  | .ok _, .error _ => isFalse (by simp)
  | .ok a, .ok b =>
    if h : a = b then isTrue (by rw [h]) else isFalse (by simp [h])

/-- State of a `SupplyPlanningModel` instance: the registered catalog, the
set of declared `(product, period)` variable keys, the stored initial
inventory dict, and the constraints added to the model so far. -/
structure SPState where
  products : List String
  periods : List Int
  varKeys : List (String × Int)
  initial_inventory : List (String × Int)
  constraints : List (LinCon PVar)
deriving DecidableEq, Repr

/-- `SupplyPlanningModel.__init__`: empty model. -/
def initSPState : SPState :=
  ⟨[], [], [], [], []⟩

/-- `add_products`: replaces the product registry. -/
def add_products (st : SPState) (ps : List String) : SPState :=
  { st with products := ps }

/-- `add_periods`: replaces the period registry. -/
def add_periods (st : SPState) (ts : List Int) : SPState :=
  { st with periods := ts }

/-- `setup_variables`: declares one variable per `(product, period)` pair in
each family and stores the initial-inventory dict (defaulting to zero per
product when omitted). -/
def setup_variables (st : SPState) (init : Option (List (String × Int))) : SPState :=
  { st with
    varKeys := st.products.flatMap (fun p => st.periods.map (fun t => (p, t))),
    initial_inventory :=
      match init with
      | none => st.products.map (fun p => (p, 0))
      | some l => l }

/-- Lookup in a string-keyed dict of numbers (`KeyError` on a missing
key), as in `self.initial_inventory[p]` or `min_production[p]`. -/
def lookupNum (l : List (String × Int)) (p : String) : Except PyErr Int :=
  match l.lookup p with
  | none => .error (.keyErrorStr p)
  | some v => .ok v

/-- Lookup of `demand[p][t]`: first the product key, then the period key. -/
def lookupDemand (demand : List (String × List (Int × Int))) (p : String) (t : Int) :
    Except PyErr Int :=
  match demand.lookup p with
  | none => .error (.keyErrorStr p)
  | some dp =>
    match dp.lookup t with
    | none => .error (.keyErrorInt t)
    | some d => .ok d

/-- Lookup of a `(product, period)` key in a variable dict, e.g.
`self.variables['inventory'][p, t]`: `KeyError` unless the key was declared
by `setup_variables`. -/
def lookupVarKey (st : SPState) (p : String) (t : Int) : Except PyErr (String × Int) :=
  if (p, t) ∈ st.varKeys then .ok (p, t) else .error (.keyErrorVar p t)

/-- The first-period demand equality emitted by `add_demand_constraints`:
`initial_inventory[p] + production[p,t0] - inventory[p,t0] + backlog[p,t0]
== demand[p][t0]`. -/
def firstCon (p : String) (t0 : Int) (i d : Int) : LinCon PVar :=
  ⟨⟨[(1, .production p t0), (-1, .inventory p t0), (1, .backlog p t0)], i⟩, .eq, ⟨[], d⟩⟩

/-- The chained demand equality emitted for a non-first period `t`:
`inventory[p,t-1] + production[p,t] - inventory[p,t] + backlog[p,t] -
backlog[p,t-1] == demand[p][t]`. -/
def chainCon (p : String) (t : Int) (d : Int) : LinCon PVar :=
  ⟨⟨[(1, .inventory p (t - 1)), (1, .production p t), (-1, .inventory p t),
     (1, .backlog p t), (-1, .backlog p (t - 1))], 0⟩, .eq, ⟨[], d⟩⟩

/-- The body of the `add_demand_constraints` loop for one `(p, t)` pair,
with Python's left-to-right evaluation order of the dict lookups (several
lookups of the same `(p, t)` key in different variable dicts — which share
one key set — are collapsed into one). -/
def demandConstraintFor (st : SPState) (demand : List (String × List (Int × Int)))
    (t0 : Int) (p : String) (t : Int) : Except PyErr (LinCon PVar) :=
  if t = t0 then
    match lookupNum st.initial_inventory p with
    | .error e => .error e
    | .ok i =>
      match lookupVarKey st p t with
      | .error e => .error e
      | .ok _ =>
        match lookupDemand demand p t with
        | .error e => .error e
        | .ok d => .ok (firstCon p t i d)
  else
    match lookupVarKey st p (t - 1) with
    | .error e => .error e
    | .ok _ =>
      match lookupVarKey st p t with
      | .error e => .error e
      | .ok _ =>
        match lookupDemand demand p t with
        | .error e => .error e
        | .ok d => .ok (chainCon p t d)

/-- Inner loop of `add_demand_constraints`: one product, all periods. -/
def demandConsForProduct (st : SPState) (demand : List (String × List (Int × Int)))
    (t0 : Int) (p : String) : List Int → Except PyErr (List (LinCon PVar))
  | [] => .ok []
  | t :: ts =>
    match demandConstraintFor st demand t0 p t with
    | .error e => .error e
    | .ok c =>
      match demandConsForProduct st demand t0 p ts with
      | .error e => .error e
      | .ok cs => .ok (c :: cs)

/-- Outer loop of `add_demand_constraints`: all products. -/
def demandConsAll (st : SPState) (demand : List (String × List (Int × Int)))
    (t0 : Int) : List String → Except PyErr (List (LinCon PVar))
  | [] => .ok []
  | p :: ps =>
    match demandConsForProduct st demand t0 p st.periods with
    | .error e => .error e
    | .ok cs =>
      match demandConsAll st demand t0 ps with
      | .error e => .error e
      | .ok rest => .ok (cs ++ rest)

/-- `add_demand_constraints`: for every product and period, one demand
equality; the first declared period (`self.periods[0]`) uses the initial
inventory, later periods chain from period `t - 1`.  With an empty period
list the loop body never runs (and `periods[0]` is never evaluated). -/
def add_demand_constraints (st : SPState) (demand : List (String × List (Int × Int))) :
    Except PyErr SPState :=
  match st.periods with
  | [] => .ok st
  | t0 :: _ =>
    match demandConsAll st demand t0 st.products with
    | .error e => .error e
    | .ok cs => .ok { st with constraints := st.constraints ++ cs }

/-- The lower lot-sizing inequality emitted by
`add_minimum_production_constraints`:
`production[p,t] >= min_production[p] * setup[p,t]`. -/
def geCon (p : String) (t : Int) (m : Int) : LinCon PVar :=
  ⟨⟨[(1, .production p t)], 0⟩, .ge, ⟨[(m, .setup p t)], 0⟩⟩

/-- The upper lot-sizing inequality emitted by
`add_minimum_production_constraints`:
`production[p,t] <= big_M * setup[p,t]`. -/
def leCon (p : String) (t : Int) (bigM : Int) : LinCon PVar :=
  ⟨⟨[(1, .production p t)], 0⟩, .le, ⟨[(bigM, .setup p t)], 0⟩⟩

/-- The big-M constant computed by `add_minimum_production_constraints`:
`sum(min_production.values()) * len(self.periods) * 2`. -/
def bigMOf (minp : List (String × Int)) (periods : List Int) : Int :=
  (minp.map (fun e => e.2)).sum * (periods.length : Int) * 2

/-- The body of the `add_minimum_production_constraints` loop for one
`(p, t)` pair: the two linking inequalities, with the `min_production[p]`
dict lookup in Python's evaluation position. -/
def minProdConsFor (st : SPState) (minp : List (String × Int)) (bigM : Int)
    (p : String) (t : Int) : Except PyErr (List (LinCon PVar)) :=
  match lookupVarKey st p t with
  | .error e => .error e
  | .ok _ =>
    match lookupNum minp p with
    | .error e => .error e
    | .ok m => .ok [geCon p t m, leCon p t bigM]

/-- Inner loop of `add_minimum_production_constraints`: one product, all
periods. -/
def minProdConsForProduct (st : SPState) (minp : List (String × Int)) (bigM : Int)
    (p : String) : List Int → Except PyErr (List (LinCon PVar))
  | [] => .ok []
  | t :: ts =>
    match minProdConsFor st minp bigM p t with
    | .error e => .error e
    | .ok cs =>
      match minProdConsForProduct st minp bigM p ts with
      | .error e => .error e
      | .ok rest => .ok (cs ++ rest)

/-- Outer loop of `add_minimum_production_constraints`: all products. -/
def minProdConsAll (st : SPState) (minp : List (String × Int)) (bigM : Int) :
    List String → Except PyErr (List (LinCon PVar))
  | [] => .ok []
  | p :: ps =>
    match minProdConsForProduct st minp bigM p st.periods with
    | .error e => .error e
    | .ok cs =>
      match minProdConsAll st minp bigM ps with
      | .error e => .error e
      | .ok rest => .ok (cs ++ rest)

/-- `add_minimum_production_constraints`: computes
`big_M = sum(min_production.values()) * len(self.periods) * 2` and emits,
for every product and period, the two setup-linking inequalities. -/
def add_minimum_production_constraints (st : SPState) (minp : List (String × Int)) :
    Except PyErr SPState :=
  match minProdConsAll st minp (bigMOf minp st.periods) st.products with
  | .error e => .error e
  | .ok cs => .ok { st with constraints := st.constraints ++ cs }

/-- One row of the DataFrame returned by `SupplyPlanningModel.get_results`. -/
structure SpmRow where
  product : String
  period : Int
  production : Int
  setup : Int
  inventory : Int
  backlog : Int
  overtime : Int
deriving DecidableEq, Repr

/-- `SupplyPlanningModel.get_results`: one row per `(product, period)` pair
of the full Cartesian product, in product-major order, reading the solved
value of each variable family. -/
def get_results (products : List String) (periods : List Int) (val : PVar → Int) :
    List SpmRow :=
  products.flatMap fun p => periods.map fun t =>
    ⟨p, t, val (.production p t), val (.setup p t), val (.inventory p t),
      val (.backlog p t), val (.overtime t)⟩

/-! ## `supply_constraints_dashboard.py` : the rule-based evaluator -/

/-- An evaluation context of the dashboard (`context` dict): a date plus the
numeric payload the rule's `logic` lambda may read. -/
structure DashContext where
  date : Int
  demand : Int
  capacity : Int
  inventory : Int
  safety_stock : Int

/-- A dashboard `Constraint`: name/type/scope metadata, a closed validity
window `[start_date, end_date]`, and a boolean `logic` predicate over the
context. -/
structure DashConstraint where
  name : String
  type_ : String
  scope : String
  start_date : Int
  end_date : Int
  logic : DashContext → Bool
  source : String
  priority : String

/-- `Constraint.evaluate` of the dashboard: inside the closed date window
the rule's logic decides between `"satisfied"` and `"violated"`; outside it
the status is `"inactive"`. -/
def DashConstraint.evaluate (c : DashConstraint) (context : DashContext) : String :=
  if c.start_date ≤ context.date ∧ context.date ≤ c.end_date then
    if c.logic context then "satisfied" else "violated"
  else
    "inactive"

/-! ## `constraints.py` : the abstract `Constraint` class hierarchy -/

/-- A dynamically typed Python value, as far as the `constraints.py` fields
need: `None`, a string, a number, or a parameters dict. -/
inductive PyVal
  | none
  | str (s : String)
  | num (q : Int)
  | dict (d : List (String × Int))
deriving DecidableEq, Repr

/-- The fields of the abstract `Constraint` base class of `constraints.py`.
`start_date`, `end_date` and `parameters` are dynamically typed: the
constructor stores whatever it is handed. -/
structure ConstraintBase where
  name : String
  description : String
  scope : String
  constraint_type : String
  start_date : PyVal
  end_date : PyVal
  parameters : PyVal
deriving DecidableEq, Repr

/-- `Constraint.__init__`: stores the positional arguments field by field;
a `None` `parameters` argument is replaced by an empty dict. -/
def constraintInit (name description scope constraint_type : String)
    (start_date end_date parameters : PyVal) : ConstraintBase :=
  { name := name, description := description, scope := scope,
    constraint_type := constraint_type, start_date := start_date,
    end_date := end_date,
    parameters := if parameters = PyVal.none then PyVal.dict [] else parameters }

/-- An `InventoryConstraint`: the base fields plus `min_inventory`. -/
structure InventoryConstraint extends ConstraintBase where
  min_inventory : Int
deriving DecidableEq, Repr

/-- `InventoryConstraint.__init__`: calls
`super().__init__(name, description, scope, 'inventory', parameters)` —
five positional arguments, so `parameters` lands in the base constructor's
`start_date` slot and `end_date`/`parameters` take their defaults
(`None`). -/
def inventoryConstraintInit (name description scope : String) (parameters : PyVal)
    (min_inventory : Int) : InventoryConstraint :=
  { toConstraintBase :=
      constraintInit name description scope "inventory" parameters PyVal.none PyVal.none,
    min_inventory := min_inventory }

/-- `InventoryConstraint.evaluate`: `inventory_level >= self.min_inventory`. -/
def InventoryConstraint.evaluate (c : InventoryConstraint) (inventory_level : Int) : Bool :=
  c.min_inventory ≤ inventory_level

/-- A `CapacityConstraint`: the base fields plus `max_capacity`. -/
structure CapacityConstraint extends ConstraintBase where
  max_capacity : Int
deriving DecidableEq, Repr

/-- `CapacityConstraint.__init__`: calls
`super().__init__(name, description, scope, 'capacity', parameters)` —
again five positional arguments, so `parameters` is stored as
`start_date`. -/
def capacityConstraintInit (name description scope : String) (parameters : PyVal)
    (max_capacity : Int) : CapacityConstraint :=
  { toConstraintBase :=
      constraintInit name description scope "capacity" parameters PyVal.none PyVal.none,
    max_capacity := max_capacity }

/-- `CapacityConstraint.evaluate`: `production_level <= self.max_capacity`. -/
def CapacityConstraint.evaluate (c : CapacityConstraint) (production_level : Int) : Bool :=
  production_level ≤ c.max_capacity

example :
    add_demand_constraints
      (setup_variables (add_periods (add_products initSPState ["A"]) [0, 1]) none)
      [("A", [(0, 5), (1, 7)])] =
    .ok { products := ["A"], periods := [0, 1],
          varKeys := [("A", 0), ("A", 1)],
          initial_inventory := [("A", 0)],
          constraints := [firstCon "A" 0 0 5, chainCon "A" 1 7] } := by
  decide

example :
    add_minimum_production_constraints
      (setup_variables (add_periods (add_products initSPState ["A"]) [0, 1]) none)
      [("A", 30)] =
    .ok { products := ["A"], periods := [0, 1],
          varKeys := [("A", 0), ("A", 1)],
          initial_inventory := [("A", 0)],
          constraints := [geCon "A" 0 30, leCon "A" 0 120, geCon "A" 1 30, leCon "A" 1 120] } := by
  decide

/-! ## `advancedsupplyplanningmodel.py` : the multi-facility model

The snapshot of `AdvancedSupplyPlanningModel` contains `__init__`,
`get_results`, `generate_scenario_comparison` and the visualization suite;
the build methods it calls are marked `# [Previous methods remain the
same]` and are absent from the repository, so they are modelled from the
spec below (each such definition says so in its doc comment). -/

/-- A decision variable of the advanced model: the seven families the
spec's `VariableRegistry` declares. -/
inductive AdvVar
  | production (f p : String) (t : Int)
  | setup (f p : String) (t : Int)
  | inventory (f p : String) (t : Int)
  | backlog (f p : String) (t : Int)
  | transport (f1 f2 p : String) (t : Int)
  | workforce (f skill : String) (t : Int)
  | overtime (f : String) (t : Int)
deriving DecidableEq, Repr

/-- A production record of `AdvancedSupplyPlanningModel.get_results`. -/
structure ProdRecord where
  facility : String
  product : String
  period : Int
  quantity : Int
  setup : Int
deriving DecidableEq, Repr

/-- An inventory record of `AdvancedSupplyPlanningModel.get_results`. -/
structure InvRecord where
  facility : String
  product : String
  period : Int
  inventory : Int
  backlog : Int
deriving DecidableEq, Repr

/-- A transportation record of `AdvancedSupplyPlanningModel.get_results`. -/
structure TransRecord where
  from_facility : String
  to_facility : String
  product : String
  period : Int
  quantity : Int
deriving DecidableEq, Repr

/-- A workforce record of `AdvancedSupplyPlanningModel.get_results`. -/
structure WorkRecord where
  facility : String
  period : Int
  skilled_workforce : Int
  unskilled_workforce : Int
  overtime : Int
deriving DecidableEq, Repr

/-- The record lists produced by `AdvancedSupplyPlanningModel.get_results`
(the `financial_summary` entry stays the empty dict in the source and is
omitted). -/
structure AdvResults where
  production : List ProdRecord
  inventory : List InvRecord
  transportation : List TransRecord
  workforce : List WorkRecord
deriving DecidableEq, Repr

/-- The production loop of `get_results`: one record per
facility × product × period, in loop order. -/
def productionResults (facilities products : List String) (periods : List Int)
    (val : AdvVar → Int) : List ProdRecord :=
  facilities.flatMap fun f => products.flatMap fun p => periods.map fun t =>
    ⟨f, p, t, val (.production f p t), val (.setup f p t)⟩

/-- The inventory loop of `get_results`. -/
def inventoryResults (facilities products : List String) (periods : List Int)
    (val : AdvVar → Int) : List InvRecord :=
  facilities.flatMap fun f => products.flatMap fun p => periods.map fun t =>
    ⟨f, p, t, val (.inventory f p t), val (.backlog f p t)⟩

/-- The transportation loop of `get_results`: a record is appended only
when `f1 != f2` and the solved transport quantity is strictly positive. -/
def transportationResults (facilities products : List String) (periods : List Int)
    (val : AdvVar → Int) : List TransRecord :=
  facilities.flatMap fun f1 => facilities.flatMap fun f2 =>
    products.flatMap fun p => periods.flatMap fun t =>
      if f1 ≠ f2 then
        if 0 < val (.transport f1 f2 p t) then
          [⟨f1, f2, p, t, val (.transport f1 f2 p t)⟩]
        else []
      else []

/-- The workforce loop of `get_results`. -/
def workforceResults (facilities : List String) (periods : List Int)
    (val : AdvVar → Int) : List WorkRecord :=
  facilities.flatMap fun f => periods.map fun t =>
    ⟨f, t, val (.workforce f "skilled" t), val (.workforce f "unskilled" t),
      val (.overtime f t)⟩

/-- `AdvancedSupplyPlanningModel.get_results`, reading the catalog and the
solved variable values. -/
def adv_get_results (facilities products : List String) (periods : List Int)
    (val : AdvVar → Int) : AdvResults :=
  ⟨productionResults facilities products periods val,
   inventoryResults facilities products periods val,
   transportationResults facilities products periods val,
   workforceResults facilities periods val⟩

/-- State of an `AdvancedSupplyPlanningModel` instance. -/
structure AdvState where
  periods : List Int
  products : List String
  facilities : List String
  varKeys : List AdvVar
  initial_inventory : List (String × List (String × Int))
  constraints : List (LinCon AdvVar)
  objective : LinExpr AdvVar
deriving DecidableEq, Repr

/-- `AdvancedSupplyPlanningModel.__init__` applied to an existing instance:
a fresh problem and empty registries.  `initial_inventory` is not a field
`__init__` assigns, so it survives the reset (it is overwritten by
`setup_variables` before any use). -/
def adv_reset (st : AdvState) : AdvState :=
  { st with periods := [], products := [], facilities := [], varKeys := [],
            constraints := [], objective := ⟨[], 0⟩ }

/-- A freshly constructed `AdvancedSupplyPlanningModel`. -/
def advInit : AdvState :=
  ⟨[], [], [], [], [], [], ⟨[], 0⟩⟩

/-- Modelled from the spec: `add_facilities` (absent from the snapshot)
replaces the facility registry. -/
def adv_add_facilities (st : AdvState) (fs : List String) : AdvState :=
  { st with facilities := fs }

/-- Modelled from the spec: `add_products` (absent from the snapshot)
replaces the product registry. -/
def adv_add_products (st : AdvState) (ps : List String) : AdvState :=
  { st with products := ps }

/-- Modelled from the spec: `add_periods` (absent from the snapshot)
replaces the period registry. -/
def adv_add_periods (st : AdvState) (ts : List Int) : AdvState :=
  { st with periods := ts }

/-- Modelled from the spec: `setup_variables` (absent from the snapshot)
declares the seven variable families over the catalog — transport only for
distinct facility pairs — and stores the initial-inventory table,
defaulting to zero per facility and product when omitted. -/
def adv_setup_variables (st : AdvState)
    (init : Option (List (String × List (String × Int)))) : AdvState :=
  { st with
    varKeys :=
      (st.facilities.flatMap fun f => st.products.flatMap fun p =>
        st.periods.flatMap fun t =>
          [.production f p t, .setup f p t, .inventory f p t, .backlog f p t]) ++
      (st.facilities.flatMap fun f1 => st.facilities.flatMap fun f2 =>
        st.products.flatMap fun p => st.periods.flatMap fun t =>
          if f1 ≠ f2 then [.transport f1 f2 p t] else []) ++
      (st.facilities.flatMap fun f => st.periods.flatMap fun t =>
        [.workforce f "skilled" t, .workforce f "unskilled" t, .overtime f t]),
    initial_inventory :=
      init.getD (st.facilities.map fun f => (f, st.products.map fun p => (p, 0))) }

/-- Nested lookup in a two-level cost/parameter table, defaulting to 0. -/
def tbl2 (tbl : List (String × List (String × Int))) (a b : String) : Int :=
  (((tbl.lookup a).getD []).lookup b).getD 0

/-- Modelled from the spec: `add_demand_satisfaction_constraints` (absent
from the snapshot) emits one flow-balance equality per
facility × product × period — boundary period from the stored initial
inventory, later periods chained from period `t-1`, netting inbound minus
outbound transport flows of the same product and period. -/
def adv_add_demand_constraints (st : AdvState)
    (demand : List (String × List (Int × Int))) : AdvState :=
  let t0 := st.periods.headD 0
  let cons := st.facilities.flatMap fun f => st.products.flatMap fun p =>
    st.periods.map fun t =>
      let d := (((demand.lookup p).getD []).lookup t).getD 0
      let inbound := st.facilities.flatMap fun f2 =>
        if f2 ≠ f then [((1 : Int), AdvVar.transport f2 f p t)] else []
      let outbound := st.facilities.flatMap fun f2 =>
        if f2 ≠ f then [((-1 : Int), AdvVar.transport f f2 p t)] else []
      if t = t0 then
        LinCon.mk
          ⟨[(1, .production f p t), (-1, .inventory f p t), (1, .backlog f p t)] ++
             inbound ++ outbound, tbl2 st.initial_inventory f p⟩
          .eq ⟨[], d⟩
      else
        LinCon.mk
          ⟨[(1, .inventory f p (t - 1)), (1, .production f p t), (-1, .inventory f p t),
             (1, .backlog f p t), (-1, .backlog f p (t - 1))] ++ inbound ++ outbound, 0⟩
          .eq ⟨[], d⟩
  { st with constraints := st.constraints ++ cons }

/-- The `workforce_params` configuration bundle; the skill-mix ratio is
kept as an exact fraction `mixNum / mixDen`. -/
structure WorkforceParams where
  min_skilled : Int
  max_hire : Int
  mixNum : Int
  mixDen : Int
deriving DecidableEq, Repr

/-- Modelled from the spec: `add_workforce_constraints` (absent from the
snapshot) — minimum skilled headcount, per-period hiring bound, and the
skill-mix ratio `skilled >= ratio * (skilled + unskilled)` cleared of its
denominator. -/
def adv_add_workforce_constraints (st : AdvState) (wp : WorkforceParams) : AdvState :=
  let t0 := st.periods.headD 0
  let cons := st.facilities.flatMap fun f => st.periods.flatMap fun t =>
    [LinCon.mk ⟨[(1, AdvVar.workforce f "skilled" t)], 0⟩ .ge ⟨[], wp.min_skilled⟩,
     LinCon.mk ⟨[(wp.mixDen - wp.mixNum, AdvVar.workforce f "skilled" t),
                 (-wp.mixNum, AdvVar.workforce f "unskilled" t)], 0⟩ .ge ⟨[], 0⟩] ++
    (if t = t0 then []
     else
       [LinCon.mk ⟨[(1, AdvVar.workforce f "skilled" t),
                    (1, AdvVar.workforce f "unskilled" t),
                    (-1, AdvVar.workforce f "skilled" (t - 1)),
                    (-1, AdvVar.workforce f "unskilled" (t - 1))], 0⟩
          .le ⟨[], wp.max_hire⟩])
  { st with constraints := st.constraints ++ cons }

/-- One raw material's requirement row: per-product usage rates and the
material's capacity. -/
structure MaterialReq where
  usage : List (String × Int)
  capacity : Int
deriving DecidableEq, Repr

/-- Modelled from the spec: `add_material_requirements_constraints`
(absent from the snapshot) — per material and period, total usage-weighted
production must not exceed the material's capacity. -/
def adv_add_material_constraints (st : AdvState)
    (mr : List (String × MaterialReq)) : AdvState :=
  let cons := mr.flatMap fun m => st.periods.map fun t =>
    LinCon.mk
      ⟨st.facilities.flatMap fun f => st.products.map fun p =>
        (((m.2.usage.lookup p).getD 0), AdvVar.production f p t), 0⟩
      .le ⟨[], m.2.capacity⟩
  { st with constraints := st.constraints ++ cons }

/-- The `cost_parameters` bundle of a scenario. -/
structure CostParams where
  production_cost : List (String × List (String × Int))
  setup_cost : List (String × List (String × Int))
  transport_cost : List (String × List (String × Int))
  inventory_cost : List (String × List (String × Int))
  backlog_cost : List (String × List (String × Int))
  workforce_cost : List (String × List (String × Int))
  hire_cost : Int
  fire_cost : Int
deriving DecidableEq, Repr

/-- Modelled from the spec: `set_objective_function` (absent from the
snapshot) — one linear cost expression summing production, setup,
inventory, backlog, transport and workforce costs. -/
def adv_set_objective (st : AdvState) (cp : CostParams) : AdvState :=
  { st with objective :=
      ⟨(st.facilities.flatMap fun f => st.products.flatMap fun p =>
          st.periods.flatMap fun t =>
            [(tbl2 cp.production_cost f p, AdvVar.production f p t),
             (tbl2 cp.setup_cost f p, AdvVar.setup f p t),
             (tbl2 cp.inventory_cost f p, AdvVar.inventory f p t),
             (tbl2 cp.backlog_cost f p, AdvVar.backlog f p t)]) ++
        (st.facilities.flatMap fun f1 => st.facilities.flatMap fun f2 =>
          st.products.flatMap fun p => st.periods.flatMap fun t =>
            if f1 ≠ f2 then [(tbl2 cp.transport_cost f1 f2, AdvVar.transport f1 f2 p t)]
            else []) ++
        (st.facilities.flatMap fun f => st.periods.flatMap fun t =>
          [(tbl2 cp.workforce_cost f "skilled", AdvVar.workforce f "skilled" t),
           (tbl2 cp.workforce_cost f "unskilled", AdvVar.workforce f "unskilled" t)]),
        0⟩ }

/-- One scenario configuration of `generate_scenario_comparison`; optional
entries mirror the `.get(key, default)` calls of the source, the remaining
entries are accessed unconditionally. -/
structure ScenarioConfig where
  facilities : Option (List String)
  products : Option (List String)
  periods : Option (List Int)
  initial_inventory : Option (List (String × List (String × Int)))
  demand : List (String × List (Int × Int))
  workforce_params : WorkforceParams
  material_requirements : Option (List (String × MaterialReq))
  cost_parameters : CostParams
deriving DecidableEq, Repr

/-- A solver outcome, as `pulp.LpStatus` reports it. -/
inductive SolveStatus
  | optimal
  | infeasible
  | unbounded
  | not_solved
  | undefinedStatus
deriving DecidableEq, Repr

/-- The per-scenario entry stored by `generate_scenario_comparison`:
`{'status': solve_status, 'results': results}`. -/
structure ScenRecord where
  status : SolveStatus
  results : AdvResults
deriving DecidableEq, Repr

/-- The configuration steps of one iteration of the
`generate_scenario_comparison` loop, applied to the current instance state:
`self.__init__()`, then the `add_*`/`setup_variables`/constraint/objective
calls with the scenario's configuration (defaults as in the source's
`.get` calls). -/
def scenario_build (st : AdvState) (cfg : ScenarioConfig) : AdvState :=
  let st1 := adv_reset st
  let st2 := adv_add_facilities st1 (cfg.facilities.getD ["Factory1"])
  let st3 := adv_add_products st2 (cfg.products.getD ["ProductA"])
  let st4 := adv_add_periods st3 (cfg.periods.getD [0, 1, 2, 3])
  let st5 := adv_setup_variables st4 cfg.initial_inventory
  let st6 := adv_add_demand_constraints st5 cfg.demand
  let st7 := adv_add_workforce_constraints st6 cfg.workforce_params
  let st8 := match cfg.material_requirements with
    | some mr => adv_add_material_constraints st7 mr
    | none => st7
  adv_set_objective st8 cfg.cost_parameters

/-- One iteration of the `generate_scenario_comparison` loop: rebuild from
the instance state, call the external solver, extract results, and return
the instance state it leaves behind together with the stored record. -/
def scenarioStep (solver : AdvState → SolveStatus × (AdvVar → Int)) (st : AdvState)
    (cfg : ScenarioConfig) : AdvState × ScenRecord :=
  let stB := scenario_build st cfg
  let sv := solver stB
  (stB, ⟨sv.1, adv_get_results stB.facilities stB.products stB.periods sv.2⟩)

/-- `generate_scenario_comparison`: iterate over the scenarios, resetting
the instance at the top of each iteration, and collect `{status, results}`
keyed by scenario name.  The external MILP solver is a parameter returning
a status and a valuation of the variables. -/
def generate_scenario_comparison (solver : AdvState → SolveStatus × (AdvVar → Int))
    (st : AdvState) (scenarios : List (String × ScenarioConfig)) :
    List (String × ScenRecord) :=
  (scenarios.foldl
    (fun acc nc =>
      let r := scenarioStep solver acc.1 nc.2
      (r.1, acc.2 ++ [(nc.1, r.2)]))
    (st, [])).2

/-- The spec's per-scenario pipeline (§4.7, stated in the spec's own
words): build a fresh, independently owned pipeline instance from the
scenario configuration alone — starting from empty state — then solve and
extract.  Compared against the source's in-place loop in the isolation
theorem. -/
def runScenario (solver : AdvState → SolveStatus × (AdvVar → Int))
    (cfg : ScenarioConfig) : ScenRecord :=
  let stB := scenario_build advInit cfg
  let sv := solver stB
  ⟨sv.1, adv_get_results stB.facilities stB.products stB.periods sv.2⟩

/-! ## Helper lemmas -/

/-- Length of a `flatMap` whose inner lists all have the same length. -/
lemma length_flatMap_const {α β : Type} (l : List α) (f : α → List β) (n : Nat)
    (h : ∀ a ∈ l, (f a).length = n) : (l.flatMap f).length = l.length * n := by
  induction l with
  | nil => simp
  | cons a l ih =>
    simp only [List.flatMap_cons, List.length_append, List.length_cons]
    rw [h a (List.mem_cons_self a l), ih (fun b hb => h b (List.mem_cons_of_mem a hb))]
    ring

/-! ## C6 / C5 : result extraction -/

/-- C6: for every catalog and valuation, `AdvancedSupplyPlanningModel.get_results`
emits exactly `|facilities| * |products| * |periods|` production records, and
the single-facility `SupplyPlanningModel.get_results` emits exactly
`|products| * |periods|` result rows. -/
theorem production_record_counts (facilities products : List String) (periods : List Int)
    (valA : AdvVar → Int) (valS : PVar → Int) :
    (adv_get_results facilities products periods valA).production.length =
      facilities.length * products.length * periods.length ∧
    (get_results products periods valS).length = products.length * periods.length := by
  constructor
  · show (productionResults facilities products periods valA).length = _
    unfold productionResults
    rw [length_flatMap_const _ _ (products.length * periods.length), Nat.mul_assoc]
    intro f _
    rw [length_flatMap_const _ _ periods.length]
    intro p _
    exact List.length_map _ _
  · unfold get_results
    rw [length_flatMap_const _ _ periods.length]
    intro p _
    exact List.length_map _ _

/-- C5: every transportation record emitted by
`AdvancedSupplyPlanningModel.get_results` has a strictly positive quantity
and distinct endpoint facilities; zero-flow lanes are never listed. -/
theorem transportation_records_positive_and_distinct
    (facilities products : List String) (periods : List Int) (val : AdvVar → Int)
    (r : TransRecord)
    (hr : r ∈ (adv_get_results facilities products periods val).transportation) :
    0 < r.quantity ∧ r.from_facility ≠ r.to_facility := by
  have hr' : r ∈ transportationResults facilities products periods val := hr
  unfold transportationResults at hr'
  simp only [List.mem_flatMap] at hr'
  obtain ⟨f1, -, f2, -, p, -, t, -, hmem⟩ := hr'
  by_cases hne : f1 ≠ f2
  · rw [if_pos hne] at hmem
    by_cases hpos : 0 < val (.transport f1 f2 p t)
    · rw [if_pos hpos, List.mem_singleton] at hmem
      subst hmem
      exact ⟨hpos, hne⟩
    · rw [if_neg hpos] at hmem
      exact absurd hmem (List.not_mem_nil r)
  · rw [if_neg hne] at hmem
    exact absurd hmem (List.not_mem_nil r)

/-- Witness for C5 at a concrete solved scenario: two facilities, one lane
with flow 1. -/
theorem transportation_records_positive_and_distinct_witness :
    0 < (TransRecord.mk "F1" "F2" "A" 0 1).quantity ∧
      (TransRecord.mk "F1" "F2" "A" 0 1).from_facility ≠
        (TransRecord.mk "F1" "F2" "A" 0 1).to_facility :=
  transportation_records_positive_and_distinct ["F1", "F2"] ["A"] [0] (fun _ => 1)
    (TransRecord.mk "F1" "F2" "A" 0 1) (by decide)

/-! ## C9 : the dashboard evaluator -/

/-- C9: `Constraint.evaluate` of the dashboard classifies every
(rule, context) pair into exactly one of the three statuses: `"inactive"`
exactly when the context date lies outside the closed window
`[start_date, end_date]`, `"satisfied"` exactly when the date is inside and
the rule's logic holds, and `"violated"` exactly when the date is inside
and the logic fails. -/
theorem dash_evaluate_three_way_classification (c : DashConstraint) (context : DashContext) :
    (c.evaluate context = "inactive" ∨ c.evaluate context = "satisfied" ∨
      c.evaluate context = "violated") ∧
    (c.evaluate context = "inactive" ↔
      ¬ (c.start_date ≤ context.date ∧ context.date ≤ c.end_date)) ∧
    (c.evaluate context = "satisfied" ↔
      (c.start_date ≤ context.date ∧ context.date ≤ c.end_date) ∧ c.logic context = true) ∧
    (c.evaluate context = "violated" ↔
      (c.start_date ≤ context.date ∧ context.date ≤ c.end_date) ∧ c.logic context = false) := by
  unfold DashConstraint.evaluate
  by_cases h : c.start_date ≤ context.date ∧ context.date ≤ c.end_date
  · by_cases hl : c.logic context <;> simp [h, hl]
  · simp [h]

/-! ## C10 : the `constraints.py` subclass constructors -/

/-- C10: both subclass constructors pass the `parameters` argument
positionally into the base constructor's `start_date` slot, so the
resulting object stores the supplied parameters value as `start_date`,
leaves `end_date` as `None`, and ends up with an empty `parameters`
dict. -/
theorem subclass_init_misplaces_parameters
    (name description scope : String) (parameters : PyVal) (minb maxb : Int) :
    ((inventoryConstraintInit name description scope parameters minb).start_date = parameters ∧
     (inventoryConstraintInit name description scope parameters minb).end_date = PyVal.none ∧
     (inventoryConstraintInit name description scope parameters minb).parameters =
       PyVal.dict []) ∧
    ((capacityConstraintInit name description scope parameters maxb).start_date = parameters ∧
     (capacityConstraintInit name description scope parameters maxb).end_date = PyVal.none ∧
     (capacityConstraintInit name description scope parameters maxb).parameters =
       PyVal.dict []) := by
  simp [inventoryConstraintInit, capacityConstraintInit, constraintInit]

/-! ## C8 / C7 : the scenario runner -/

/-- The configuration steps of a loop iteration rebuild the very same model
whatever instance state the iteration starts from: `self.__init__()` resets
every field that is subsequently read. -/
lemma scenario_build_independent (st : AdvState) (cfg : ScenarioConfig) :
    scenario_build st cfg = scenario_build advInit cfg := rfl

/-- The record one loop iteration stores is the spec's fresh-pipeline
result, independent of the incoming instance state. -/
lemma scenarioStep_record (solver : AdvState → SolveStatus × (AdvVar → Int))
    (st : AdvState) (cfg : ScenarioConfig) :
    (scenarioStep solver st cfg).2 = runScenario solver cfg := rfl

/-- Unrolling the scenario loop: the accumulated record list. -/
lemma generate_scenario_comparison_aux (solver : AdvState → SolveStatus × (AdvVar → Int)) :
    ∀ (scenarios : List (String × ScenarioConfig)) (st : AdvState)
      (acc : List (String × ScenRecord)),
      (scenarios.foldl
        (fun acc nc =>
          let r := scenarioStep solver acc.1 nc.2
          (r.1, acc.2 ++ [(nc.1, r.2)]))
        (st, acc)).2 =
        acc ++ scenarios.map (fun nc => (nc.1, runScenario solver nc.2))
  | [], st, acc => by simp
  | nc :: rest, st, acc => by
    simp only [List.foldl_cons, List.map_cons]
    rw [generate_scenario_comparison_aux solver rest _ _, scenarioStep_record]
    simp

/-- `generate_scenario_comparison` equals the per-scenario map of the
spec's fresh pipeline. -/
lemma generate_eq_map (solver : AdvState → SolveStatus × (AdvVar → Int))
    (st : AdvState) (scenarios : List (String × ScenarioConfig)) :
    generate_scenario_comparison solver st scenarios =
      scenarios.map (fun nc => (nc.1, runScenario solver nc.2)) := by
  unfold generate_scenario_comparison
  rw [generate_scenario_comparison_aux]
  simp

/-- Looking up one scenario's entry in the mapped output. -/
lemma lookup_map_of_nodup {β : Type} (g : ScenarioConfig → β) :
    ∀ (l : List (String × ScenarioConfig)) (name : String) (cfg : ScenarioConfig),
      (name, cfg) ∈ l → (l.map Prod.fst).Nodup →
      List.lookup name (l.map (fun nc => (nc.1, g nc.2))) = some (g cfg)
  | [], name, cfg, hmem, _ => absurd hmem (List.not_mem_nil _)
  | (n, c) :: tl, name, cfg, hmem, hnd => by
    simp only [List.map_cons, List.lookup_cons]
    rcases List.mem_cons.mp hmem with heq | htl
    · obtain ⟨rfl, rfl⟩ := Prod.mk.injEq .. ▸ heq
      simp
    · have hne : name ≠ n := by
        intro h
        subst h
        exact (List.nodup_cons.mp hnd).1
          (List.mem_map.mpr ⟨(name, cfg), htl, rfl⟩)
      have hbeq : (name == n) = false := by simp [hne]
      rw [hbeq]
      exact lookup_map_of_nodup g tl name cfg htl (List.nodup_cons.mp hnd).2

/-- C8: every scenario's pipeline starts from empty state, so the batch
output is pointwise the spec's fresh-pipeline run of each scenario's own
config — one scenario's build and solve cannot alter another scenario's
recorded entry, whatever instance state the batch starts from. -/
theorem generate_scenario_comparison_isolated
    (solver : AdvState → SolveStatus × (AdvVar → Int)) (st : AdvState)
    (scenarios : List (String × ScenarioConfig)) :
    generate_scenario_comparison solver st scenarios =
      scenarios.map (fun nc => (nc.1, runScenario solver nc.2)) :=
  generate_eq_map solver st scenarios

/-- C7: when the solver reports a non-optimal outcome for a scenario, the
batch still records `{status, results}` for it under its name, preserving
that status for caller inspection (no exception path exists). -/
theorem generate_scenario_comparison_preserves_nonoptimal_status
    (solver : AdvState → SolveStatus × (AdvVar → Int)) (st : AdvState)
    (scenarios : List (String × ScenarioConfig)) (name : String) (cfg : ScenarioConfig)
    (hmem : (name, cfg) ∈ scenarios)
    (hnd : (scenarios.map Prod.fst).Nodup)
    (hbad : (solver (scenario_build advInit cfg)).1 ≠ SolveStatus.optimal) :
    List.lookup name (generate_scenario_comparison solver st scenarios) =
      some (runScenario solver cfg) ∧
    (runScenario solver cfg).status = (solver (scenario_build advInit cfg)).1 := by
  refine ⟨?_, rfl⟩
  rw [generate_eq_map]
  exact lookup_map_of_nodup _ scenarios name cfg hmem hnd

/-- A canned external solver that reports every model infeasible. -/
def solverW : AdvState → SolveStatus × (AdvVar → Int) :=
  fun _ => (SolveStatus.infeasible, fun _ => 0)

/-- A small concrete scenario configuration. -/
def cfgW : ScenarioConfig :=
  { facilities := some ["F1"], products := some ["A"], periods := some [0, 1],
    initial_inventory := none, demand := [("A", [(0, 5), (1, 7)])],
    workforce_params := ⟨1, 2, 1, 2⟩, material_requirements := none,
    cost_parameters := ⟨[], [], [], [], [], [], 0, 0⟩ }

/-- Witness for C7: a one-scenario batch whose solve comes back
infeasible. -/
theorem generate_scenario_comparison_preserves_nonoptimal_status_witness :
    List.lookup "S" (generate_scenario_comparison solverW advInit [("S", cfgW)]) =
      some (runScenario solverW cfgW) ∧
    (runScenario solverW cfgW).status = (solverW (scenario_build advInit cfgW)).1 :=
  generate_scenario_comparison_preserves_nonoptimal_status solverW advInit [("S", cfgW)]
    "S" cfgW (by decide) (by decide) (by decide)

/-! ## C1–C4 : the demand and lot-sizing constraint builders -/

lemma lookupVarKey_ok {st : SPState} {p : String} {t : Int} (h : (p, t) ∈ st.varKeys) :
    lookupVarKey st p t = .ok (p, t) := by
  simp [lookupVarKey, h]

lemma firstCon_ne_chainCon (p q : String) (t0 t : Int) (i d d' : Int) :
    firstCon p t0 i d ≠ chainCon q t d' := by
  simp [firstCon, chainCon]

/-- Inversion of the loop body: a successfully built demand constraint is
the first-period form exactly at `t0` and the chained form elsewhere. -/
lemma demandConstraintFor_ok_cases {st : SPState} {demand : List (String × List (Int × Int))}
    {t0 : Int} {p : String} {t : Int} {c : LinCon PVar}
    (h : demandConstraintFor st demand t0 p t = .ok c) :
    (t = t0 ∧ ∃ i d, lookupNum st.initial_inventory p = .ok i ∧
        lookupDemand demand p t = .ok d ∧ c = firstCon p t i d) ∨
    (t ≠ t0 ∧ ∃ d, lookupDemand demand p t = .ok d ∧ c = chainCon p t d) := by
  by_cases hT : t = t0
  · subst hT
    left
    refine ⟨rfl, ?_⟩
    cases hI : lookupNum st.initial_inventory p with
    | error e => simp [demandConstraintFor, hI] at h
    | ok i =>
      cases hV : lookupVarKey st p t with
      | error e => simp [demandConstraintFor, hI, hV] at h
      | ok k =>
        cases hD : lookupDemand demand p t with
        | error e => simp [demandConstraintFor, hI, hV, hD] at h
        | ok d =>
          simp only [demandConstraintFor, if_pos rfl, hI, hV, hD] at h
          injection h with h
          exact ⟨i, d, rfl, rfl, h.symm⟩
  · right
    refine ⟨hT, ?_⟩
    cases hV1 : lookupVarKey st p (t - 1) with
    | error e => simp [demandConstraintFor, hT, hV1] at h
    | ok k1 =>
      cases hV : lookupVarKey st p t with
      | error e => simp [demandConstraintFor, hT, hV1, hV] at h
      | ok k =>
        cases hD : lookupDemand demand p t with
        | error e => simp [demandConstraintFor, hT, hV1, hV, hD] at h
        | ok d =>
          simp only [demandConstraintFor, if_neg hT, hV1, hV, hD] at h
          injection h with h
          exact ⟨d, rfl, h.symm⟩

/-- Forward evaluation of the loop body at the first period. -/
lemma demandConstraintFor_first {st : SPState} {demand : List (String × List (Int × Int))}
    {t0 : Int} {p : String} {i d : Int}
    (hI : lookupNum st.initial_inventory p = .ok i)
    (hV : (p, t0) ∈ st.varKeys)
    (hD : lookupDemand demand p t0 = .ok d) :
    demandConstraintFor st demand t0 p t0 = .ok (firstCon p t0 i d) := by
  simp [demandConstraintFor, hI, lookupVarKey_ok hV, hD]

/-- Forward evaluation of the loop body at a non-first period whose
predecessor `t - 1` is a declared variable key. -/
lemma demandConstraintFor_chain {st : SPState} {demand : List (String × List (Int × Int))}
    {t0 : Int} {p : String} {t : Int} {d : Int}
    (hT : t ≠ t0)
    (hV1 : (p, t - 1) ∈ st.varKeys) (hV : (p, t) ∈ st.varKeys)
    (hD : lookupDemand demand p t = .ok d) :
    demandConstraintFor st demand t0 p t = .ok (chainCon p t d) := by
  simp [demandConstraintFor, hT, lookupVarKey_ok hV1, lookupVarKey_ok hV, hD]

/-- Forward evaluation of the inner loop when every period's body succeeds. -/
lemma demandConsForProduct_map {st : SPState} {demand : List (String × List (Int × Int))}
    {t0 : Int} {p : String} (g : Int → LinCon PVar) :
    ∀ ts : List Int, (∀ t ∈ ts, demandConstraintFor st demand t0 p t = .ok (g t)) →
      demandConsForProduct st demand t0 p ts = .ok (ts.map g)
  | [], _ => by simp [demandConsForProduct]
  | t :: ts, h => by
    have h1 := h t (List.mem_cons_self t ts)
    have h2 := demandConsForProduct_map g ts (fun x hx => h x (List.mem_cons_of_mem t hx))
    simp [demandConsForProduct, h1, h2]

/-- Forward evaluation of the outer loop when every product's inner loop
succeeds. -/
lemma demandConsAll_map {st : SPState} {demand : List (String × List (Int × Int))}
    {t0 : Int} (g : String → List (LinCon PVar)) :
    ∀ ps : List String,
      (∀ p ∈ ps, demandConsForProduct st demand t0 p st.periods = .ok (g p)) →
      demandConsAll st demand t0 ps = .ok (ps.flatMap g)
  | [], _ => by simp [demandConsAll]
  | p :: ps, h => by
    have h1 := h p (List.mem_cons_self p ps)
    have h2 := demandConsAll_map g ps (fun x hx => h x (List.mem_cons_of_mem p hx))
    simp [demandConsAll, h1, h2]

/-- Count of the first-period form among one product's emitted constraints:
one per occurrence of `t0` in the period list. -/
lemma count_demandConsForProduct_first {st : SPState}
    {demand : List (String × List (Int × Int))} {t0 : Int} {p : String} {i d : Int}
    (hI : lookupNum st.initial_inventory p = .ok i)
    (hD : lookupDemand demand p t0 = .ok d) :
    ∀ (ts : List Int) (cs : List (LinCon PVar)),
      demandConsForProduct st demand t0 p ts = .ok cs →
      cs.count (firstCon p t0 i d) = ts.count t0
  | [], cs, h => by
    simp only [demandConsForProduct] at h
    injection h with h
    subst h
    simp
  | t :: ts, cs, h => by
    cases h1 : demandConstraintFor st demand t0 p t with
    | error e => simp [demandConsForProduct, h1] at h
    | ok c =>
      cases h2 : demandConsForProduct st demand t0 p ts with
      | error e => simp [demandConsForProduct, h1, h2] at h
      | ok cs' =>
        simp only [demandConsForProduct, h1, h2] at h
        injection h with h
        subst h
        rw [List.count_cons, List.count_cons,
          count_demandConsForProduct_first hI hD ts cs' h2]
        rcases demandConstraintFor_ok_cases h1 with
          ⟨hT, i', d', hI', hD', hc⟩ | ⟨hT, d', hD', hc⟩
        · subst hT
          have hi : i' = i := by
            injection hI.symm.trans hI' with h'
            exact h'.symm
          have hd : d' = d := by
            injection hD.symm.trans hD' with h'
            exact h'.symm
          subst hi hd hc
          simp
        · subst hc
          have hne : ¬ chainCon p t d' = firstCon p t0 i d :=
            fun hh => firstCon_ne_chainCon p p t0 t i d d' hh.symm
          simp [hne, hT]

/-- Another product's emitted constraints never contain `p`'s first-period
form. -/
lemma count_demandConsForProduct_first_other {st : SPState}
    {demand : List (String × List (Int × Int))} {t0 : Int} {p q : String} {i d : Int}
    (hqp : q ≠ p) :
    ∀ (ts : List Int) (cs : List (LinCon PVar)),
      demandConsForProduct st demand t0 q ts = .ok cs →
      cs.count (firstCon p t0 i d) = 0
  | [], cs, h => by
    simp only [demandConsForProduct] at h
    injection h with h
    subst h
    simp
  | t :: ts, cs, h => by
    cases h1 : demandConstraintFor st demand t0 q t with
    | error e => simp [demandConsForProduct, h1] at h
    | ok c =>
      cases h2 : demandConsForProduct st demand t0 q ts with
      | error e => simp [demandConsForProduct, h1, h2] at h
      | ok cs' =>
        simp only [demandConsForProduct, h1, h2] at h
        injection h with h
        subst h
        rw [List.count_cons, count_demandConsForProduct_first_other hqp ts cs' h2]
        rcases demandConstraintFor_ok_cases h1 with
          ⟨hT, i', d', hI', hD', hc⟩ | ⟨hT, d', hD', hc⟩ <;> subst hc
        · have hne : ¬ firstCon q t i' d' = firstCon p t0 i d := by
            simp [firstCon, hqp]
          simp [hne]
        · have hne : ¬ chainCon q t d' = firstCon p t0 i d :=
            fun hh => firstCon_ne_chainCon p q t0 t i d d' hh.symm
          simp [hne]

lemma firstCon_inj {p q : String} {t1 t2 i1 i2 d1 d2 : Int}
    (h : firstCon p t1 i1 d1 = firstCon q t2 i2 d2) :
    p = q ∧ t1 = t2 ∧ i1 = i2 ∧ d1 = d2 := by
  simp [firstCon] at h
  tauto

lemma chainCon_inj {p q : String} {t1 t2 d1 d2 : Int}
    (h : chainCon p t1 d1 = chainCon q t2 d2) :
    p = q ∧ t1 = t2 ∧ d1 = d2 := by
  simp [chainCon] at h
  tauto

/-- Count of one non-first period's chained form among one product's
emitted constraints: one per occurrence of `t` in the period list. -/
lemma count_demandConsForProduct_chain {st : SPState}
    {demand : List (String × List (Int × Int))} {t0 : Int} {p : String} {t d : Int}
    (hT : t ≠ t0)
    (hD : lookupDemand demand p t = .ok d) :
    ∀ (ts : List Int) (cs : List (LinCon PVar)),
      demandConsForProduct st demand t0 p ts = .ok cs →
      cs.count (chainCon p t d) = ts.count t
  | [], cs, h => by
    simp only [demandConsForProduct] at h
    injection h with h
    subst h
    simp
  | t' :: ts, cs, h => by
    cases h1 : demandConstraintFor st demand t0 p t' with
    | error e => simp [demandConsForProduct, h1] at h
    | ok c =>
      cases h2 : demandConsForProduct st demand t0 p ts with
      | error e => simp [demandConsForProduct, h1, h2] at h
      | ok cs' =>
        simp only [demandConsForProduct, h1, h2] at h
        injection h with h
        subst h
        rw [List.count_cons, List.count_cons,
          count_demandConsForProduct_chain hT hD ts cs' h2]
        rcases demandConstraintFor_ok_cases h1 with
          ⟨hT', i', d', hI', hD', hc⟩ | ⟨hT', d', hD', hc⟩ <;> subst hc
        · subst hT'
          have hne : ¬ firstCon p t' i' d' = chainCon p t d :=
            firstCon_ne_chainCon p p t' t i' d' d
          have htt : ¬ (t' = t) := fun hh => hT (hh ▸ rfl)
          simp [hne, htt]
        · by_cases htt : t' = t
          · subst htt
            have hd : d' = d := by
              injection hD.symm.trans hD' with h'
              exact h'.symm
            subst hd
            simp
          · have hne : ¬ chainCon p t' d' = chainCon p t d :=
              fun hh => htt (chainCon_inj hh).2.1
            simp [hne, htt]

/-- Another product's emitted constraints never contain `p`'s chained
form. -/
lemma count_demandConsForProduct_chain_other {st : SPState}
    {demand : List (String × List (Int × Int))} {t0 : Int} {p q : String} {t d : Int}
    (hqp : q ≠ p) :
    ∀ (ts : List Int) (cs : List (LinCon PVar)),
      demandConsForProduct st demand t0 q ts = .ok cs →
      cs.count (chainCon p t d) = 0
  | [], cs, h => by
    simp only [demandConsForProduct] at h
    injection h with h
    subst h
    simp
  | t' :: ts, cs, h => by
    cases h1 : demandConstraintFor st demand t0 q t' with
    | error e => simp [demandConsForProduct, h1] at h
    | ok c =>
      cases h2 : demandConsForProduct st demand t0 q ts with
      | error e => simp [demandConsForProduct, h1, h2] at h
      | ok cs' =>
        simp only [demandConsForProduct, h1, h2] at h
        injection h with h
        subst h
        rw [List.count_cons, count_demandConsForProduct_chain_other hqp ts cs' h2]
        rcases demandConstraintFor_ok_cases h1 with
          ⟨hT', i', d', hI', hD', hc⟩ | ⟨hT', d', hD', hc⟩ <;> subst hc
        · have hne : ¬ firstCon q t' i' d' = chainCon p t d :=
            firstCon_ne_chainCon q p t' t i' d' d
          simp [hne]
        · have hne : ¬ chainCon q t' d' = chainCon p t d :=
            fun hh => hqp (chainCon_inj hh).1
          simp [hne]

/-- If `p` is not among the products, its target constraint never occurs in
the outer loop's output. -/
lemma count_demandConsAll_zero {st : SPState}
    {demand : List (String × List (Int × Int))} {t0 : Int} {target : LinCon PVar}
    {p : String}
    (hother : ∀ q, q ≠ p → ∀ cs, demandConsForProduct st demand t0 q st.periods = .ok cs →
      cs.count target = 0) :
    ∀ (ps : List String) (csAll : List (LinCon PVar)), p ∉ ps →
      demandConsAll st demand t0 ps = .ok csAll → csAll.count target = 0
  | [], csAll, _, h => by
    simp only [demandConsAll] at h
    injection h with h
    subst h
    simp
  | q :: ps, csAll, hnp, h => by
    cases h1 : demandConsForProduct st demand t0 q st.periods with
    | error e => simp [demandConsAll, h1] at h
    | ok cs =>
      cases h2 : demandConsAll st demand t0 ps with
      | error e => simp [demandConsAll, h1, h2] at h
      | ok rest =>
        simp only [demandConsAll, h1, h2] at h
        injection h with h
        subst h
        rw [List.count_append,
          hother q (fun hh => hnp (hh ▸ List.mem_cons_self q ps)) cs h1,
          count_demandConsAll_zero hother ps rest
            (fun hh => hnp (List.mem_cons_of_mem q hh)) h2]

/-- Count of a product-`p` target constraint in the outer loop's output:
whatever `p`'s own block contributes, provided other products contribute
nothing. -/
lemma count_demandConsAll_of {st : SPState}
    {demand : List (String × List (Int × Int))} {t0 : Int} {target : LinCon PVar}
    {p : String} {n : Nat}
    (hself : ∀ cs, demandConsForProduct st demand t0 p st.periods = .ok cs →
      cs.count target = n)
    (hother : ∀ q, q ≠ p → ∀ cs, demandConsForProduct st demand t0 q st.periods = .ok cs →
      cs.count target = 0) :
    ∀ (ps : List String) (csAll : List (LinCon PVar)), ps.Nodup → p ∈ ps →
      demandConsAll st demand t0 ps = .ok csAll → csAll.count target = n
  | [], csAll, _, hp, _ => absurd hp (List.not_mem_nil p)
  | q :: ps, csAll, hnd, hp, h => by
    cases h1 : demandConsForProduct st demand t0 q st.periods with
    | error e => simp [demandConsAll, h1] at h
    | ok cs =>
      cases h2 : demandConsAll st demand t0 ps with
      | error e => simp [demandConsAll, h1, h2] at h
      | ok rest =>
        simp only [demandConsAll, h1, h2] at h
        injection h with h
        subst h
        rw [List.count_append]
        by_cases hqp : q = p
        · subst hqp
          rw [hself cs h1,
            count_demandConsAll_zero hother ps rest (List.nodup_cons.mp hnd).1 h2]
          simp
        · rcases List.mem_cons.mp hp with hh | hh
          · exact absurd hh.symm hqp
          · rw [hother q hqp cs h1,
              count_demandConsAll_of hself hother ps rest
                (List.nodup_cons.mp hnd).2 hh h2]
            simp

/-- C1: for every product `p` and the first declared period `t0`,
`add_demand_constraints` emits exactly one equality of the form
`initial_inventory[p] + production[p,t0] - inventory[p,t0] + backlog[p,t0]
== demand[p][t0]` — previous inventory and backlog are absent (treated as
zero, with the initial inventory standing in) at the horizon start. -/
theorem add_demand_constraints_first_period_unique
    (st : SPState) (demand : List (String × List (Int × Int)))
    (t0 : Int) (rest : List Int) (st' : SPState) (p : String) (i d : Int)
    (hper : st.periods = t0 :: rest) (ht0 : t0 ∉ rest)
    (hnd : st.products.Nodup) (hc0 : st.constraints = [])
    (hok : add_demand_constraints st demand = .ok st')
    (hp : p ∈ st.products)
    (hI : lookupNum st.initial_inventory p = .ok i)
    (hD : lookupDemand demand p t0 = .ok d) :
    st'.constraints.count (firstCon p t0 i d) = 1 := by
  unfold add_demand_constraints at hok
  rw [hper] at hok
  cases hAll : demandConsAll st demand t0 st.products with
  | error e => simp [hAll] at hok
  | ok cs =>
    simp only [hAll] at hok
    injection hok with hok
    subst hok
    show (st.constraints ++ cs).count (firstCon p t0 i d) = 1
    rw [hc0, List.nil_append]
    have hcount := count_demandConsAll_of
      (count_demandConsForProduct_first hI hD st.periods)
      (fun q hq => count_demandConsForProduct_first_other hq st.periods)
      st.products cs hnd hp hAll
    rw [hcount, hper, List.count_cons]
    simp [List.count_eq_zero.mpr ht0]

/-- A concrete two-product, two-period model state, freshly configured. -/
def stW : SPState :=
  setup_variables (add_periods (add_products initSPState ["A", "B"]) [0, 1]) none

/-- A concrete demand table for `stW`. -/
def demW : List (String × List (Int × Int)) :=
  [("A", [(0, 5), (1, 7)]), ("B", [(0, 8), (1, 9)])]

/-- The model state after `add_demand_constraints stW demW`. -/
def stW' : SPState :=
  { stW with constraints :=
      [firstCon "A" 0 0 5, chainCon "A" 1 7, firstCon "B" 0 0 8, chainCon "B" 1 9] }

/-- Witness for C1 on the concrete model `stW`. -/
theorem add_demand_constraints_first_period_unique_witness :
    stW'.constraints.count (firstCon "A" 0 0 5) = 1 :=
  add_demand_constraints_first_period_unique stW demW 0 [1] stW' "A" 0 5 rfl
    (by decide) (by decide) rfl (by decide) (by decide) (by decide) (by decide)

/-- In a contiguous ascending period list, every non-first period exceeds
the head and has its predecessor `t - 1` in the list. -/
lemma chain_succ_facts : ∀ (t0 : Int) (rest : List Int),
    List.Chain' (fun a b : Int => b = a + 1) (t0 :: rest) →
    ∀ t ∈ rest, t0 < t ∧ t - 1 ∈ t0 :: rest
  | _, [], _, t, ht => absurd ht (List.not_mem_nil t)
  | t0, b :: rs, h, t, ht => by
    have hb : b = t0 + 1 := (List.chain'_cons.mp h).1
    have hch : List.Chain' (fun a b : Int => b = a + 1) (b :: rs) :=
      (List.chain'_cons.mp h).2
    rcases List.mem_cons.mp ht with rfl | hmem
    · refine ⟨by omega, ?_⟩
      have hteq : t - 1 = t0 := by omega
      rw [hteq]
      exact List.mem_cons_self t0 _
    · obtain ⟨hlt, hpm⟩ := chain_succ_facts b rs hch t hmem
      exact ⟨by omega, List.mem_cons_of_mem t0 hpm⟩

/-- A contiguous ascending period list has no duplicates. -/
lemma chain_succ_nodup : ∀ (l : List Int),
    List.Chain' (fun a b : Int => b = a + 1) l → l.Nodup
  | [], _ => List.nodup_nil
  | t0 :: rest, h => by
    refine List.nodup_cons.mpr ⟨?_, ?_⟩
    · intro hmem
      have := (chain_succ_facts t0 rest h t0 hmem).1
      omega
    · cases rest with
      | nil => exact List.nodup_nil
      | cons b rs => exact chain_succ_nodup (b :: rs) (List.chain'_cons.mp h).2

/-- Success of the outer loop determines the success of
`add_demand_constraints`. -/
lemma add_demand_constraints_eq {st : SPState}
    {demand : List (String × List (Int × Int))} {t0 : Int} {rest : List Int}
    {cs : List (LinCon PVar)}
    (hper : st.periods = t0 :: rest)
    (hAll : demandConsAll st demand t0 st.products = .ok cs) :
    add_demand_constraints st demand =
      .ok { st with constraints := st.constraints ++ cs } := by
  unfold add_demand_constraints
  rw [hper]
  simp [hAll]

/-- The constraint the loop body builds for `(p, t)` once all lookups
succeed: first-period form at `t0`, chained form elsewhere. -/
def demandConTotal (t0 : Int) (p : String) (i : Int) (dm : Int → Int) (t : Int) :
    LinCon PVar :=
  if t = t0 then firstCon p t i (dm t) else chainCon p t (dm t)

/-- C2 counterexample: with the ascending but non-contiguous period list
`[0, 2]`, `add_demand_constraints` does not build — the second period's
equality looks up the undeclared variable key `(p, t-1) = ("A", 1)` and
fails with a `KeyError`. -/
theorem add_demand_constraints_noncontiguous_fails :
    List.Pairwise (fun a b : Int => a < b) [0, 2] ∧
    add_demand_constraints
      (setup_variables (add_periods (add_products initSPState ["A"]) [0, 2]) none)
      [("A", [(0, 5), (2, 7)])] = .error (PyErr.keyErrorVar "A" 1) := by
  constructor
  · decide
  · decide

/-- C2 (amended): for every scenario whose period list is ascending and
contiguous, `add_demand_constraints` builds, and for every product and
every non-first declared period `t` it emits exactly one equality chaining
from period `t - 1` — which is the immediately preceding declared
period. -/
theorem add_demand_constraints_contiguous_chain
    (st : SPState) (demand : List (String × List (Int × Int)))
    (t0 : Int) (rest : List Int)
    (ini : String → Int) (dem : String → Int → Int)
    (hper : st.periods = t0 :: rest)
    (hchain : List.Chain' (fun a b : Int => b = a + 1) st.periods)
    (hnd : st.products.Nodup)
    (hc0 : st.constraints = [])
    (hvk : ∀ p ∈ st.products, ∀ t ∈ st.periods, (p, t) ∈ st.varKeys)
    (hini : ∀ p ∈ st.products, lookupNum st.initial_inventory p = .ok (ini p))
    (hdem : ∀ p ∈ st.products, ∀ t ∈ st.periods, lookupDemand demand p t = .ok (dem p t)) :
    ∃ st', add_demand_constraints st demand = .ok st' ∧
      ∀ p ∈ st.products, ∀ t ∈ rest,
        t - 1 ∈ st.periods ∧
        st'.constraints.count (chainCon p t (dem p t)) = 1 := by
  have hfacts := chain_succ_facts t0 rest (hper ▸ hchain)
  have hbody : ∀ p ∈ st.products, ∀ t ∈ st.periods,
      demandConstraintFor st demand t0 p t = .ok (demandConTotal t0 p (ini p) (dem p) t) := by
    intro p hp t ht
    by_cases hT : t = t0
    · subst hT
      rw [demandConTotal, if_pos rfl]
      exact demandConstraintFor_first (hini p hp) (hvk p hp t ht) (hdem p hp t ht)
    · rw [demandConTotal, if_neg hT]
      have htr : t ∈ rest := by
        rw [hper] at ht
        rcases List.mem_cons.mp ht with rfl | hh
        · exact absurd rfl hT
        · exact hh
      have hpm : t - 1 ∈ st.periods := by
        rw [hper]
        exact (hfacts t htr).2
      exact demandConstraintFor_chain hT (hvk p hp (t - 1) hpm) (hvk p hp t ht)
        (hdem p hp t ht)
  have hinner : ∀ p ∈ st.products, demandConsForProduct st demand t0 p st.periods
      = .ok (st.periods.map (demandConTotal t0 p (ini p) (dem p))) := fun p hp =>
    demandConsForProduct_map _ st.periods (fun t ht => hbody p hp t ht)
  have hAll := demandConsAll_map
    (fun p => st.periods.map (demandConTotal t0 p (ini p) (dem p))) st.products hinner
  refine ⟨_, add_demand_constraints_eq hper hAll, ?_⟩
  intro p hp t htr
  have hT : t ≠ t0 := by
    have := (hfacts t htr).1
    omega
  have htm : t ∈ st.periods := by
    rw [hper]
    exact List.mem_cons_of_mem t0 htr
  refine ⟨by rw [hper]; exact (hfacts t htr).2, ?_⟩
  show (st.constraints ++ _).count _ = 1
  rw [hc0, List.nil_append]
  have hcount := count_demandConsAll_of
    (count_demandConsForProduct_chain hT (hdem p hp t htm) st.periods)
    (fun q hq => count_demandConsForProduct_chain_other hq st.periods)
    st.products _ hnd hp hAll
  rw [hcount, hper]
  have hnodup : (t0 :: rest).Nodup := chain_succ_nodup _ (hper ▸ hchain)
  exact List.count_eq_one_of_mem hnodup (List.mem_cons_of_mem t0 htr)

/-- The demand values of `demW` as a function. -/
def demF : String → Int → Int := fun p t =>
  if p = "A" then (if t = 0 then 5 else 7) else (if t = 0 then 8 else 9)

/-- Witness for the amended C2 on the concrete contiguous model `stW`. -/
theorem add_demand_constraints_contiguous_chain_witness :
    ∃ st', add_demand_constraints stW demW = .ok st' ∧
      ∀ p ∈ stW.products, ∀ t ∈ [1],
        t - 1 ∈ stW.periods ∧
        st'.constraints.count (chainCon p t (demF p t)) = 1 :=
  add_demand_constraints_contiguous_chain stW demW 0 [1] (fun _ => 0) demF rfl
    (List.Chain.cons (by decide) List.Chain.nil) (by decide) rfl (by decide)
    (by decide) (by decide)

lemma geCon_inj {p q : String} {t1 t2 m1 m2 : Int} (h : geCon p t1 m1 = geCon q t2 m2) :
    p = q ∧ t1 = t2 ∧ m1 = m2 := by
  simp [geCon] at h
  tauto

lemma leCon_inj {p q : String} {t1 t2 m1 m2 : Int} (h : leCon p t1 m1 = leCon q t2 m2) :
    p = q ∧ t1 = t2 ∧ m1 = m2 := by
  simp [leCon] at h
  tauto

lemma geCon_ne_leCon (p q : String) (t1 t2 m M : Int) : geCon p t1 m ≠ leCon q t2 M := by
  simp [geCon, leCon]

/-- Forward evaluation of the lot-sizing loop body. -/
lemma minProdConsFor_ok {st : SPState} {minp : List (String × Int)}
    {p : String} {t : Int} {m : Int} (bigM : Int)
    (hV : (p, t) ∈ st.varKeys) (hm : lookupNum minp p = .ok m) :
    minProdConsFor st minp bigM p t = .ok [geCon p t m, leCon p t bigM] := by
  simp [minProdConsFor, lookupVarKey_ok hV, hm]

/-- Forward evaluation of the lot-sizing inner loop. -/
lemma minProdConsForProduct_map {st : SPState} {minp : List (String × Int)}
    {p : String} {m : Int} (bigM : Int) (hm : lookupNum minp p = .ok m) :
    ∀ ts : List Int, (∀ t ∈ ts, (p, t) ∈ st.varKeys) →
      minProdConsForProduct st minp bigM p ts =
        .ok (ts.flatMap fun t => [geCon p t m, leCon p t bigM])
  | [], _ => by simp [minProdConsForProduct]
  | t :: ts, h => by
    have h1 := minProdConsFor_ok bigM (h t (List.mem_cons_self t ts)) hm
    have h2 := minProdConsForProduct_map bigM hm ts
      (fun x hx => h x (List.mem_cons_of_mem t hx))
    simp [minProdConsForProduct, h1, h2]

/-- Forward evaluation of the lot-sizing outer loop. -/
lemma minProdConsAll_map {st : SPState} {minp : List (String × Int)}
    (bigM : Int) (mp : String → Int) :
    ∀ ps : List String,
      (∀ p ∈ ps, lookupNum minp p = .ok (mp p)) →
      (∀ p ∈ ps, ∀ t ∈ st.periods, (p, t) ∈ st.varKeys) →
      minProdConsAll st minp bigM ps =
        .ok (ps.flatMap fun p => st.periods.flatMap fun u =>
          [geCon p u (mp p), leCon p u bigM])
  | [], _, _ => by simp [minProdConsAll]
  | p :: ps, hm, hv => by
    have h1 := minProdConsForProduct_map bigM (hm p (List.mem_cons_self p ps)) st.periods
      (fun t ht => hv p (List.mem_cons_self p ps) t ht)
    have h2 := minProdConsAll_map bigM mp ps (fun x hx => hm x (List.mem_cons_of_mem p hx))
      (fun x hx => hv x (List.mem_cons_of_mem p hx))
    simp [minProdConsAll, h1, h2]

lemma add_minimum_production_constraints_eq {st : SPState} {minp : List (String × Int)}
    {cs : List (LinCon PVar)}
    (hAll : minProdConsAll st minp (bigMOf minp st.periods) st.products = .ok cs) :
    add_minimum_production_constraints st minp =
      .ok { st with constraints := st.constraints ++ cs } := by
  unfold add_minimum_production_constraints
  simp [hAll]

/-- Count of a target in a two-element list. -/
lemma count_pair {β : Type} [DecidableEq β] (a b target : β) :
    ([a, b] : List β).count target =
      (if a = target then 1 else 0) + (if b = target then 1 else 0) := by
  by_cases h1 : a = target <;> by_cases h2 : b = target <;>
    simp [List.count_cons, h1, h2]

/-- Counting a target in a `flatMap` where no index contributes. -/
lemma count_flatMap_zero {α β : Type} [DecidableEq β] (F : α → List β) (target : β)
    (p : α) (hother : ∀ q, q ≠ p → (F q).count target = 0) :
    ∀ ps : List α, p ∉ ps → (ps.flatMap F).count target = 0
  | [], _ => by simp
  | q :: ps, hnp => by
    rw [List.flatMap_cons, List.count_append,
      hother q (fun hh => hnp (hh ▸ List.mem_cons_self q ps)),
      count_flatMap_zero F target p hother ps (fun hh => hnp (List.mem_cons_of_mem q hh))]

/-- Counting a target in a `flatMap` over a duplicate-free index list where
only index `p` contributes. -/
lemma count_flatMap_single {α β : Type} [DecidableEq β] (F : α → List β) (target : β)
    (p : α) (n : Nat) (hself : (F p).count target = n)
    (hother : ∀ q, q ≠ p → (F q).count target = 0) :
    ∀ ps : List α, ps.Nodup → p ∈ ps → (ps.flatMap F).count target = n
  | [], _, hp => absurd hp (List.not_mem_nil p)
  | q :: ps, hnd, hp => by
    rw [List.flatMap_cons, List.count_append]
    by_cases hqp : q = p
    · subst hqp
      rw [hself, count_flatMap_zero F target q hother ps (List.nodup_cons.mp hnd).1]
      simp
    · rcases List.mem_cons.mp hp with hh | hh
      · exact absurd hh.symm hqp
      · rw [hother q hqp, count_flatMap_single F target p n hself hother ps
          (List.nodup_cons.mp hnd).2 hh]
        simp

/-- Count of `p`'s lower lot-sizing inequality at `t` inside `p`'s block. -/
lemma count_minProdBlock_ge {p : String} {m bigM t : Int} :
    ∀ ts : List Int,
      ((ts.flatMap fun u => [geCon p u m, leCon p u bigM]).count (geCon p t m)) = ts.count t
  | [] => by simp
  | u :: ts => by
    rw [List.flatMap_cons, List.count_append, count_minProdBlock_ge ts, count_pair]
    by_cases htt : u = t
    · subst htt
      rw [List.count_cons_self, if_pos rfl,
        if_neg (fun hh => geCon_ne_leCon p p u u m bigM hh.symm)]
      omega
    · rw [List.count_cons_of_ne (fun hh => htt hh.symm),
        if_neg (fun hh => htt (geCon_inj hh).2.1),
        if_neg (fun hh => geCon_ne_leCon p p t u m bigM hh.symm)]
      omega

/-- Another product's block never contains `p`'s lower inequality. -/
lemma count_minProdBlock_ge_other {p q : String} (hqp : q ≠ p) {mq m bigM t : Int} :
    ∀ ts : List Int,
      ((ts.flatMap fun u => [geCon q u mq, leCon q u bigM]).count (geCon p t m)) = 0
  | [] => by simp
  | u :: ts => by
    rw [List.flatMap_cons, List.count_append, count_minProdBlock_ge_other hqp ts,
      count_pair, if_neg (fun hh => hqp (geCon_inj hh).1),
      if_neg (fun hh => geCon_ne_leCon p q t u m bigM hh.symm)]

/-- Count of `p`'s upper lot-sizing inequality at `t` inside `p`'s block. -/
lemma count_minProdBlock_le {p : String} {m bigM t : Int} :
    ∀ ts : List Int,
      ((ts.flatMap fun u => [geCon p u m, leCon p u bigM]).count (leCon p t bigM)) = ts.count t
  | [] => by simp
  | u :: ts => by
    rw [List.flatMap_cons, List.count_append, count_minProdBlock_le ts, count_pair]
    by_cases htt : u = t
    · subst htt
      rw [List.count_cons_self, if_pos rfl, if_neg (geCon_ne_leCon p p u u m bigM)]
      omega
    · rw [List.count_cons_of_ne (fun hh => htt hh.symm),
        if_neg (geCon_ne_leCon p p u t m bigM),
        if_neg (fun hh => htt (leCon_inj hh).2.1)]
      omega

/-- Another product's block never contains `p`'s upper inequality. -/
lemma count_minProdBlock_le_other {p q : String} (hqp : q ≠ p) {mq bigM t : Int} :
    ∀ ts : List Int,
      ((ts.flatMap fun u => [geCon q u mq, leCon q u bigM]).count (leCon p t bigM)) = 0
  | [] => by simp
  | u :: ts => by
    rw [List.flatMap_cons, List.count_append, count_minProdBlock_le_other hqp ts,
      count_pair, if_neg (geCon_ne_leCon q p u t mq bigM),
      if_neg (fun hh => hqp (leCon_inj hh).1)]

lemma lookupNum_cons_ne {k p : String} {v : Int} {tl : List (String × Int)}
    (hpk : p ≠ k) : lookupNum ((k, v) :: tl) p = lookupNum tl p := by
  have hbeq : (p == k) = false := by simp [hpk]
  simp [lookupNum, List.lookup, hbeq]

/-- With duplicate-free keys, the dict's value column is the lookup
function mapped over its key column. -/
lemma minp_values_eq : ∀ (minp : List (String × Int)) (mp : String → Int),
    (minp.map Prod.fst).Nodup →
    (∀ p ∈ minp.map Prod.fst, lookupNum minp p = .ok (mp p)) →
    minp.map (fun e => e.2) = (minp.map Prod.fst).map mp
  | [], _, _, _ => rfl
  | (k, v) :: tl, mp, hnd, hmp => by
    have hk : lookupNum ((k, v) :: tl) k = .ok v := by
      simp [lookupNum, List.lookup]
    have hmpk := hmp k (by simp)
    have hv : mp k = v := by
      injection hk.symm.trans hmpk with h'
      exact h'.symm
    simp only [List.map_cons]
    congr 1
    · exact hv.symm
    · refine minp_values_eq tl mp (List.nodup_cons.mp hnd).2 ?_
      intro p hp
      have hpk : p ≠ k := by
        intro hh
        subst hh
        exact (List.nodup_cons.mp hnd).1 hp
      have hlk := hmp p (List.mem_cons_of_mem _ hp)
      rwa [lookupNum_cons_ne hpk] at hlk

/-- C3: `add_minimum_production_constraints` emits, for every product and
period, exactly the two linking inequalities
`production >= min_production[p] * setup` and `production <= big_M * setup`,
with `big_M = sum(min_production.values()) * len(periods) * 2` — the sum of
all products' minimum-production quantities times the number of declared
periods times 2. -/
theorem add_minimum_production_constraints_two_inequalities
    (st : SPState) (minp : List (String × Int)) (mp : String → Int)
    (hnd : st.products.Nodup) (hnp : st.periods.Nodup)
    (hc0 : st.constraints = [])
    (hvk : ∀ p ∈ st.products, ∀ t ∈ st.periods, (p, t) ∈ st.varKeys)
    (hmp : ∀ p ∈ st.products, lookupNum minp p = .ok (mp p))
    (hkeys : minp.map Prod.fst = st.products) :
    ∃ st', add_minimum_production_constraints st minp = .ok st' ∧
      bigMOf minp st.periods =
        ((st.products.map mp).sum) * (st.periods.length : Int) * 2 ∧
      st'.constraints.length = 2 * st.products.length * st.periods.length ∧
      ∀ p ∈ st.products, ∀ t ∈ st.periods,
        st'.constraints.count (geCon p t (mp p)) = 1 ∧
        st'.constraints.count (leCon p t (bigMOf minp st.periods)) = 1 := by
  have hAll := minProdConsAll_map (bigMOf minp st.periods) mp st.products hmp hvk
  refine ⟨_, add_minimum_production_constraints_eq hAll, ?_, ?_, ?_⟩
  · have h1 : minp.map (fun e => e.2) = st.products.map mp := by
      rw [minp_values_eq minp mp (hkeys ▸ hnd) (fun p hp => hmp p (hkeys ▸ hp)), hkeys]
    unfold bigMOf
    rw [h1]
  · show (st.constraints ++ _).length = _
    rw [hc0, List.nil_append,
      length_flatMap_const _ _ (st.periods.length * 2)]
    · ring
    · intro p _
      rw [length_flatMap_const _ _ 2]
      intro t _
      rfl
  · intro p hp t ht
    have hcnt := List.count_eq_one_of_mem hnp ht
    constructor
    · show (st.constraints ++ _).count _ = 1
      rw [hc0, List.nil_append,
        count_flatMap_single _ _ p (st.periods.count t)
          (count_minProdBlock_ge st.periods)
          (fun q hq => count_minProdBlock_ge_other hq st.periods)
          st.products hnd hp]
      exact hcnt
    · show (st.constraints ++ _).count _ = 1
      rw [hc0, List.nil_append,
        count_flatMap_single _ _ p (st.periods.count t)
          (count_minProdBlock_le st.periods)
          (fun q hq => count_minProdBlock_le_other hq st.periods)
          st.products hnd hp]
      exact hcnt

/-- The minimum-production dict used by the witness. -/
def minpW : List (String × Int) := [("A", 30), ("B", 25)]

/-- Its values as a function. -/
def mpF : String → Int := fun p => if p = "A" then 30 else 25

/-- Witness for C3 on the concrete model `stW`. -/
theorem add_minimum_production_constraints_two_inequalities_witness :
    ∃ st', add_minimum_production_constraints stW minpW = .ok st' ∧
      bigMOf minpW stW.periods =
        ((stW.products.map mpF).sum) * (stW.periods.length : Int) * 2 ∧
      st'.constraints.length = 2 * stW.products.length * stW.periods.length ∧
      ∀ p ∈ stW.products, ∀ t ∈ stW.periods,
        st'.constraints.count (geCon p t (mpF p)) = 1 ∧
        st'.constraints.count (leCon p t (bigMOf minpW stW.periods)) = 1 :=
  add_minimum_production_constraints_two_inequalities stW minpW mpF
    (by decide) (by decide) rfl (by decide) (by decide) (by decide)

/-- C4 counterexample: with the demand dict empty, building fails with a
plain `KeyError` on the product key — not with a `MissingParameter`
error. -/
theorem missing_demand_raises_key_error_not_missing_parameter :
    add_demand_constraints
      (setup_variables (add_periods (add_products initSPState ["A"]) [0, 1]) none) [] =
      .error (PyErr.keyErrorStr "A") := by
  decide

/-- The inner loop propagates the first failing period's error. -/
lemma demandConsForProduct_error {st : SPState}
    {demand : List (String × List (Int × Int))} {t0 : Int} {p : String} {e : PyErr}
    (gt : Int → LinCon PVar) {t : Int}
    (herr : demandConstraintFor st demand t0 p t = .error e) :
    ∀ ts1 ts2 : List Int,
      (∀ u ∈ ts1, demandConstraintFor st demand t0 p u = .ok (gt u)) →
      demandConsForProduct st demand t0 p (ts1 ++ t :: ts2) = .error e
  | [], ts2, _ => by simp [demandConsForProduct, herr]
  | u :: ts1, ts2, h => by
    have h1 := h u (List.mem_cons_self u ts1)
    have h2 := demandConsForProduct_error gt herr ts1 ts2
      (fun x hx => h x (List.mem_cons_of_mem u hx))
    simp [demandConsForProduct, h1, h2]

/-- The outer loop propagates the first failing product's error. -/
lemma demandConsAll_error {st : SPState}
    {demand : List (String × List (Int × Int))} {t0 : Int} {p : String} {e : PyErr}
    (g : String → List (LinCon PVar))
    (herr : demandConsForProduct st demand t0 p st.periods = .error e) :
    ∀ ps1 ps2 : List String,
      (∀ q ∈ ps1, demandConsForProduct st demand t0 q st.periods = .ok (g q)) →
      demandConsAll st demand t0 (ps1 ++ p :: ps2) = .error e
  | [], ps2, _ => by simp [demandConsAll, herr]
  | q :: ps1, ps2, h => by
    have h1 := h q (List.mem_cons_self q ps1)
    have h2 := demandConsAll_error g herr ps1 ps2
      (fun x hx => h x (List.mem_cons_of_mem q hx))
    simp [demandConsAll, h1, h2]

/-- C4 (amended): when the demand dict lacks an entry for a declared
product, or for a declared period of a product, and the loop reaches that
pair (every earlier product and period builds successfully), the build
fails with a `KeyError` identifying the missing key — the missing demand is
not silently treated as zero, but the error is a plain key lookup error,
not a `MissingParameter`. -/
theorem add_demand_constraints_missing_demand_key_error
    (st : SPState) (demand : List (String × List (Int × Int)))
    (t0 : Int) (rest : List Int)
    (ps1 : List String) (p : String) (ps2 : List String)
    (ts1 : List Int) (t : Int) (ts2 : List Int)
    (g : String → List (LinCon PVar)) (gt : Int → LinCon PVar) (e : PyErr)
    (hper : st.periods = t0 :: rest)
    (hteq : st.periods = ts1 ++ t :: ts2)
    (hprod : st.products = ps1 ++ p :: ps2)
    (hok1 : ∀ q ∈ ps1, demandConsForProduct st demand t0 q st.periods = .ok (g q))
    (hok2 : ∀ u ∈ ts1, demandConstraintFor st demand t0 p u = .ok (gt u))
    (hbody : demandConstraintFor st demand t0 p t = .error e)
    (hkey : lookupDemand demand p t = .error e) :
    add_demand_constraints st demand = .error e ∧
    (e = PyErr.keyErrorStr p ∨ e = PyErr.keyErrorInt t) := by
  constructor
  · have hinner : demandConsForProduct st demand t0 p st.periods = .error e := by
      rw [hteq]
      exact demandConsForProduct_error gt hbody ts1 ts2 hok2
    have houter : demandConsAll st demand t0 st.products = .error e := by
      rw [hprod]
      exact demandConsAll_error g hinner ps1 ps2 hok1
    unfold add_demand_constraints
    rw [hper]
    simp [houter]
  · unfold lookupDemand at hkey
    cases hl : demand.lookup p with
    | none =>
      simp [hl] at hkey
      exact Or.inl hkey.symm
    | some dp =>
      cases hl2 : dp.lookup t with
      | none =>
        simp [hl, hl2] at hkey
        exact Or.inr hkey.symm
      | some d =>
        simp [hl, hl2] at hkey

/-- A demand dict that lacks the entry for product `"B"` at period `1`. -/
def demB : List (String × List (Int × Int)) := [("A", [(0, 5), (1, 7)]), ("B", [(0, 8)])]

/-- Witness for the amended C4 on the concrete model `stW`: demand for
`"B"` at period `1` is absent and the build fails with `KeyError(1)`. -/
theorem add_demand_constraints_missing_demand_key_error_witness :
    add_demand_constraints stW demB = .error (PyErr.keyErrorInt 1) ∧
    (PyErr.keyErrorInt 1 = PyErr.keyErrorStr "B" ∨
      PyErr.keyErrorInt 1 = PyErr.keyErrorInt 1) :=
  add_demand_constraints_missing_demand_key_error stW demB 0 [1] ["A"] "B" [] [0] 1 []
    (fun _ => [firstCon "A" 0 0 5, chainCon "A" 1 7]) (fun _ => firstCon "B" 0 0 8)
    (PyErr.keyErrorInt 1) rfl rfl rfl (by decide) (by decide) (by decide) (by decide)
